import Mathlib

/-!
Shallow embedding of the booking-lifecycle, scheduling and matching core of the
WebAgents marketplace backend (`src/backend/app`), together with proofs of the
behavioural properties stated in the specification.

Conventions of the embedding:
* datetimes are integers (minutes on a common linear time axis); times of day
  are minutes after midnight of the target date, so `datetime.combine(date, t)`
  is just `t` on that date's axis;
* prices, scores and confidences are rationals;
* Python `Optional` fields become `Option`; Python truthiness of a numeric
  value (`x or d`, `if final_price:`) is modelled explicitly (zero is falsy);
* an HTTP 400 (`BadRequestError`) becomes `Except.error msg`; the access-control
  and 404 paths of the endpoints are outside the modelled core.
-/

namespace WebAgents

/-- Booking status strings used by `app/api/bookings.py` and `app/api/disputes.py`. -/
inductive BookingStatus where
  | requested
  | accepted
  | scheduled
  | inProgress
  | completed
  | cancelled
  | disputed
  deriving DecidableEq, Repr

/-- The role recorded in `cancelled_by`. -/
inductive Actor where
  | customer
  | provider
  | admin
  deriving DecidableEq, Repr

/-- The fields of the `Booking` ORM model (`app/db/models.py`) that the booking
transitions read or write. -/
structure Booking where
  status : BookingStatus
  scheduled_datetime : Option Int
  estimated_duration_minutes : Option Int
  final_price : Option ℚ
  completed_at : Option Int
  cancelled_by : Option Actor
  cancellation_reason : Option String
  cancelled_at : Option Int
  deriving DecidableEq, Repr

/-- The provider statistics touched by `complete_booking`
(`ProviderProfile.total_bookings`, `ProviderProfile.completion_rate`). -/
structure ProviderStats where
  total_bookings : Int
  completion_rate : ℚ
  deriving DecidableEq, Repr

/-- A freshly created booking request (`create_booking_request` in
`app/api/bookings.py` inserts with `status="requested"` and leaves the
scheduling/completion/cancellation fields unset). -/
def mkRequestedBooking (estDur : Option Int) : Booking :=
  { status := .requested
    scheduled_datetime := none
    estimated_duration_minutes := estDur
    final_price := none
    completed_at := none
    cancelled_by := none
    cancellation_reason := none
    cancelled_at := none }

/-! Part: Booking transitions (`app/api/bookings.py`) -/

/-- Endpoint `accept_booking`: guard `status == "requested"`, then `status = "accepted"`. -/
def accept_booking (b : Booking) : Except String Booking :=
  if b.status ≠ .requested then
    .error "Booking cannot be accepted in current status"
  else
    .ok { b with status := .accepted }

/-- Endpoint `reject_booking`: guard `status == "requested"`, then `status = "cancelled"`,
`cancellation_reason = reason`, `cancelled_by = "provider"`. -/
def reject_booking (b : Booking) (reason : String) : Except String Booking :=
  if b.status ≠ .requested then
    .error "Booking cannot be rejected in current status"
  else
    .ok { b with
      status := .cancelled
      cancellation_reason := some reason
      cancelled_by := some Actor.provider }

/-- Endpoint `schedule_booking`: guard `status == "accepted"`; then the requested
datetime is compared against the start datetimes of the scheduling service's
`suggested_slots` (`available_times` in the source); the check
`if available_times and scheduled_time_str not in available_times` rejects only
when that list is non-empty; on success `status = "scheduled"` and
`scheduled_datetime` is set. -/
def schedule_booking (b : Booking) (scheduled_datetime : Int)
    (available_times : List Int) : Except String Booking :=
  if b.status ≠ .accepted then
    .error "Booking must be accepted before scheduling"
  else if available_times ≠ [] ∧ scheduled_datetime ∉ available_times then
    .error "Selected time slot is not available"
  else
    .ok { b with status := .scheduled, scheduled_datetime := some scheduled_datetime }

/-- Endpoint `start_booking`: guard `status == "scheduled"`, then `status = "in_progress"`. -/
def start_booking (b : Booking) : Except String Booking :=
  if b.status ≠ .scheduled then
    .error "Booking must be scheduled before starting"
  else
    .ok { b with status := .inProgress }

/-- Number of bookings in `hist` having status `s` (one of the
`SELECT COUNT(...) WHERE status ...` queries of `complete_booking`). -/
def countStatus (s : BookingStatus) (hist : List Booking) : Nat :=
  (hist.filter (fun x => x.status = s)).length

/-- The statuses counted by `complete_booking`'s `total_accepted` query:
`status IN ("accepted", "scheduled", "in_progress", "completed")`. -/
def isActiveStatus (s : BookingStatus) : Bool :=
  s = .accepted ∨ s = .scheduled ∨ s = .inProgress ∨ s = .completed

/-- Number of bookings in `hist` in one of the accepted-or-later statuses. -/
def countActive (hist : List Booking) : Nat :=
  (hist.filter (fun x => isActiveStatus x.status)).length

/-- The mutation block of `complete_booking`: `status = "completed"`,
`completed_at = now`, and `if final_price:` stores the price only when it is
supplied and non-zero (Python truthiness of `Decimal`). -/
def completeUpdate (b : Booking) (final_price : Option ℚ) (now : Int) : Booking :=
  { b with
    status := .completed
    completed_at := some now
    final_price :=
      match final_price with
      | some p => if p ≠ 0 then some p else b.final_price
      | none => b.final_price }

/-- Endpoint `complete_booking`: guard `status == "in_progress"`; applies
`completeUpdate` and `total_bookings += 1` in memory, then runs the two
`COUNT` queries. The app's session factory disables autoflush
(`db/client.py`), so both counts see the pre-update rows `b :: others` —
the current booking still counted as `in_progress` — hence
`total_accepted.scalar() > 0` always holds once the guard has passed. The
assignment on the next line then calls `total_accepted.scalar()` a second
time on the result that the first call closed, which raises
(`ResourceClosedError`); `get_db` rolls the session back, so nothing is
committed. The unreachable `total_accepted == 0` arm skips the recompute and
commits. The raised exception is modelled as an error result. -/
def complete_booking (b : Booking) (final_price : Option ℚ) (now : Int)
    (provider : ProviderStats) (others : List Booking) :
    Except String (Booking × ProviderStats) :=
  if b.status ≠ .inProgress then
    .error "Booking must be in progress before completing"
  else
    if 0 < countActive (b :: others) then
      .error "This result object is closed"
    else
      .ok (completeUpdate b final_price now,
        { provider with total_bookings := provider.total_bookings + 1 })

/-- The booking-side guard and mutation of the complete endpoint, used by the
trace semantics: rejecting when the status is not `in_progress`, otherwise
producing `completeUpdate`. Including the successful completion
over-approximates the endpoint (whose stats recomputation raises before
commit, see `complete_booking`), so every state the code can persist is
still covered and the `in_progress → completed` edge of §4.3 is exercised. -/
def complete_booking_update (b : Booking) (final_price : Option ℚ) (now : Int) :
    Except String Booking :=
  if b.status ≠ .inProgress then
    .error "Booking must be in progress before completing"
  else
    .ok (completeUpdate b final_price now)

/-- Endpoint `cancel_booking`: guard `status not in ["completed", "cancelled"]`; sets
`status = "cancelled"` plus the cancellation metadata. -/
def cancel_booking (b : Booking) (who : Actor) (reason : String) (now : Int) :
    Except String Booking :=
  if b.status = .completed ∨ b.status = .cancelled then
    .error "Booking cannot be cancelled in current status"
  else
    .ok { b with
      status := .cancelled
      cancellation_reason := some reason
      cancelled_by := some who
      cancelled_at := some now }

/-- Endpoint `create_dispute` (`app/api/disputes.py`): the only guard on the booking is
that no `Dispute` row exists for it (`existing_dispute`); there is no check on
`booking.status`. On success a dispute record is created and
`booking.status = "disputed"`. The returned `Bool` is whether a dispute record
exists afterwards. -/
def create_dispute (b : Booking) (existing_dispute : Bool) :
    Except String (Booking × Bool) :=
  if existing_dispute then
    .error "Dispute already exists for this booking"
  else
    .ok ({ b with status := .disputed }, true)

/-! Part: The booking state machine as event traces -/

/-- One invocation of a booking transition endpoint, with its request data.
`schedule` carries the start datetimes of the scheduling service's suggested
slots as seen by `schedule_booking`; `complete` touches no provider
statistics on the booking itself, so the trace semantics runs its
booking-side part `complete_booking_update`. -/
inductive BookingEvent where
  | accept
  | reject (reason : String)
  | schedule (dt : Int) (available_times : List Int)
  | start
  | complete (final_price : Option ℚ) (now : Int)
  | cancel (who : Actor) (reason : String) (now : Int)

/-- Apply one endpoint invocation to a booking (the booking-side effect of the
corresponding handler in `app/api/bookings.py`). -/
def applyEvent (b : Booking) : BookingEvent → Except String Booking
  | .accept => accept_booking b
  | .reject reason => reject_booking b reason
  | .schedule dt avail => schedule_booking b dt avail
  | .start => start_booking b
  | .complete price now => complete_booking_update b price now
  | .cancel who reason now => cancel_booking b who reason now

/-- Run a list of endpoint invocations, recording every booking state reached;
`none` as soon as one invocation is rejected. The head of the result is the
starting state. -/
def traceBookings (b : Booking) : List BookingEvent → Option (List Booking)
  | [] => some [b]
  | e :: es =>
    match applyEvent b e with
    | .ok b' => (traceBookings b' es).map (fun l => b :: l)
    | .error _ => none

/-- The §4.3 transition graph restricted to the six booking endpoints:
`requested → accepted → scheduled → in_progress → completed`, with `cancelled`
reachable from every pre-terminal state. -/
def statusEdge : BookingStatus → BookingStatus → Bool
  | .requested, .accepted => true
  | .accepted, .scheduled => true
  | .scheduled, .inProgress => true
  | .inProgress, .completed => true
  | .requested, .cancelled => true
  | .accepted, .cancelled => true
  | .scheduled, .cancelled => true
  | .inProgress, .cancelled => true
  | _, _ => false

/-- The documented booking invariant: `scheduled_datetime` is set whenever the
status is `scheduled`, `in_progress` or `completed`. -/
def schedInvariant (b : Booking) : Prop :=
  b.status = .scheduled ∨ b.status = .inProgress ∨ b.status = .completed →
    b.scheduled_datetime ≠ none

instance (b : Booking) : Decidable (schedInvariant b) := by
  unfold schedInvariant; infer_instance

/-! Part: Availability slot computation (`app/services/scheduling.py`) -/

/-- One row of `ProviderAvailability`: day-of-week `0..6` (Monday = 0, as by
`date.weekday()`), opening interval as minutes after midnight, availability
flag. -/
structure ProviderAvailability where
  day_of_week : Nat
  start_time : Int
  end_time : Int
  is_available : Bool
  deriving DecidableEq, Repr

/-- One row of `ProviderTimeOff`: an exception interval on the common time
axis. -/
structure ProviderTimeOff where
  start_datetime : Int
  end_datetime : Int
  deriving DecidableEq, Repr

/-- One emitted slot (the `{"start": ..., "end": ...}` dictionaries). -/
structure Slot where
  start : Int
  «end» : Int
  deriving DecidableEq, Repr

/-- Python's `x or d` on an optional integer: `None` and `0` both fall back to
the default (used for `booking.estimated_duration_minutes or duration_minutes`). -/
def pyOrInt (v : Option Int) (d : Int) : Int :=
  match v with
  | some x => if x = 0 then d else x
  | none => d

/-- Does the candidate slot `[cursor, slot_end)` conflict with booking `bk`?
Source: `if not (slot_end <= booking_start or current_time >= booking_end)`,
where bookings with `scheduled_datetime` unset are skipped and
`booking_end = booking_start + (booking.estimated_duration_minutes or
duration_minutes)`. -/
def bookingConflict (cursor slot_end : Int) (duration_minutes : Int)
    (bk : Booking) : Bool :=
  match bk.scheduled_datetime with
  | some booking_start =>
    let booking_end :=
      booking_start + pyOrInt bk.estimated_duration_minutes duration_minutes
    ¬(slot_end ≤ booking_start ∨ cursor ≥ booking_end)
  | none => false

/-- Does the candidate slot conflict with time-off interval `t`?
Source: `if not (slot_end <= time_off.start_datetime or current_time >=
time_off.end_datetime)`. -/
def timeOffConflict (cursor slot_end : Int) (t : ProviderTimeOff) : Bool :=
  ¬(slot_end ≤ t.start_datetime ∨ cursor ≥ t.end_datetime)

/-- The slot-generation loop of `_calculate_available_slots`: starting at
`current_time`, emit `[cursor, cursor + duration)` at 30-minute increments
while `cursor + duration <= end_datetime`, dropping candidates that conflict
with an existing booking or a time-off interval. -/
def slotLoop (current_time end_datetime : Int) (duration_minutes : Int)
    (existing_bookings : List Booking) (time_off_periods : List ProviderTimeOff) :
    List Slot :=
  if h : current_time + duration_minutes ≤ end_datetime then
    if existing_bookings.any
         (bookingConflict current_time (current_time + duration_minutes) duration_minutes) ||
       time_off_periods.any
         (timeOffConflict current_time (current_time + duration_minutes)) then
      slotLoop (current_time + 30) end_datetime duration_minutes
        existing_bookings time_off_periods
    else
      ⟨current_time, current_time + duration_minutes⟩ ::
        slotLoop (current_time + 30) end_datetime duration_minutes
          existing_bookings time_off_periods
  else
    []
  termination_by (end_datetime - duration_minutes - current_time + 30).toNat
  decreasing_by all_goals (simp_wf; omega)

/-- Method `SchedulingService._calculate_available_slots`. The preferred date is
represented by its weekday (`date.weekday()`), all datetimes being minutes on
that date's axis; `availability` is the list handed in by `get_available_slots`
(already restricted to `is_available == True` rows by the query). Returns `[]`
when no date is given or no availability row matches the weekday. -/
def calculate_available_slots (availability : List ProviderAvailability)
    (existing_bookings : List Booking)
    (time_off_periods : List ProviderTimeOff)
    (preferred_date : Option Nat) (duration_minutes : Int) : List Slot :=
  match preferred_date with
  | none => []
  | some day_of_week =>
    match availability.find? (fun a => a.day_of_week = day_of_week) with
    | none => []
    | some day_availability =>
      slotLoop day_availability.start_time day_availability.end_time
        duration_minutes existing_bookings time_off_periods

/-- The slot-relevant part of `SchedulingService.get_available_slots`: the
availability query keeps only rows with `is_available == True`, and the
bookings query keeps only the provider's bookings with
`status IN ("accepted", "scheduled", "in_progress")`. -/
def get_available_slots (availability : List ProviderAvailability)
    (bookings : List Booking) (time_off_periods : List ProviderTimeOff)
    (preferred_date : Option Nat) (duration_minutes : Int) : List Slot :=
  calculate_available_slots
    (availability.filter (fun a => a.is_available))
    (bookings.filter (fun b =>
      b.status = .accepted ∨ b.status = .scheduled ∨ b.status = .inProgress))
    time_off_periods preferred_date duration_minutes

/-! Part: Agents (`app/agents/base.py`, `matching_agent.py`, `scheduling_agent.py`) -/

/-- Python 3's `round` to the nearest integer, halves to the even neighbour. -/
def roundHalfEven (x : ℚ) : ℤ :=
  if x - ⌊x⌋ < 1/2 then ⌊x⌋
  else if 1/2 < x - ⌊x⌋ then ⌊x⌋ + 1
  else if ⌊x⌋ % 2 = 0 then ⌊x⌋ else ⌊x⌋ + 1

/-- Python's `round(x, 2)` on the rational model of the score. -/
def pyRound2 (x : ℚ) : ℚ :=
  (roundHalfEven (x * 100) : ℚ) / 100

/-- One entry of the `available_providers` context list built by
`MatchingService.find_matching_providers` (the fields read by the fallback
scorer; the service always populates them, so the `.get(..., default)`
defaults of the scorer are never exercised). -/
structure MatchCandidate where
  id : String
  rating : ℚ
  distance_km : ℚ
  completion_rate : ℚ
  deriving DecidableEq, Repr

/-- One entry of the fallback `matches` list (score field only — the
`reasoning`/`strengths`/`concerns` strings carry no logic). -/
structure FallbackMatch where
  provider_id : String
  match_score : ℚ
  deriving DecidableEq, Repr

/-- The score computed by `MatchingAgent._create_fallback_matches` for one
candidate: base 50, plus `(rating - 3.0) * 10`, plus a distance bonus of 20
below 5 km or 10 below 10 km, plus `(completion_rate - 80) * 0.2`, clamped by
`max(0, min(100, score))`. -/
def fallback_match_score (p : MatchCandidate) : ℚ :=
  let score : ℚ := 50
  let score := score + (p.rating - 3) * 10
  let score := score +
    (if p.distance_km < 5 then 20 else if p.distance_km < 10 then 10 else 0)
  let score := score + (p.completion_rate - 80) * (2/10)
  max 0 (min 100 score)

/-- Descending order on match scores (`sort(key=..., reverse=True)`). -/
def matchGE (a b : FallbackMatch) : Prop := b.match_score ≤ a.match_score

instance : DecidableRel matchGE := fun a b =>
  inferInstanceAs (Decidable (b.match_score ≤ a.match_score))

/-- Method `MatchingAgent._create_fallback_matches`: score every candidate with
`round(score, 2)`, sort descending by `match_score` (stable, as Python's
`list.sort`), return the first 5. -/
def create_fallback_matches (providers : List MatchCandidate) : List FallbackMatch :=
  let «matches» := providers.map
    (fun p => ⟨p.id, pyRound2 (fallback_match_score p)⟩)
  (List.insertionSort matchGE «matches»).take 5

/-- Outcome of the guarded LLM call inside `BaseAgent.execute`: a parsed
response, an `asyncio.TimeoutError`, or any other exception. -/
inductive AgentOutcome (α : Type) where
  | ok (response : α)
  | timeout
  | failure (error : String)

/-- The shape of `BaseAgent.execute`: both `except` arms swallow the error and
return `self._get_fallback_response(context, ...)`, so the function is total —
it never re-raises. -/
def agent_execute {α : Type} (fallback_response : String → α) :
    AgentOutcome α → α
  | .ok r => r
  | .timeout => fallback_response "AI request timed out"
  | .failure e => fallback_response e

/-- The fields of `MatchingAgent._get_fallback_response` that carry logic:
the fallback matches and the `"fallback": True` marker. -/
structure MatchingResponse where
  «matches» : List FallbackMatch
  fallback : Bool
  deriving DecidableEq, Repr

/-- Method `MatchingAgent._get_fallback_response`. -/
def matching_fallback_response (providers : List MatchCandidate) (_error : String) :
    MatchingResponse :=
  { «matches» := create_fallback_matches providers, fallback := true }

/-- Method `MatchingAgent.execute` on a context whose `available_providers` list is
`providers`: a successful agent call passes its parsed response through
(`fallback := false` on that arm), a timeout or exception yields the fallback
response. -/
def matching_execute (providers : List MatchCandidate)
    (outcome : AgentOutcome MatchingResponse) : MatchingResponse :=
  agent_execute (matching_fallback_response providers) outcome

/-- One entry of the `suggested_slots` list built by the scheduling agent
(fields carrying logic: the interval and the confidence). -/
structure SuggestedSlot where
  start_datetime : Int
  end_datetime : Int
  confidence : ℚ
  deriving DecidableEq, Repr

/-- Method `SchedulingAgent._create_fallback_slots`. `preferred_date` is the minute
of the preferred date's midnight on the common axis and
`preferred_time_start` the preferred minutes after midnight, so
`datetime.fromisoformat(f"{preferred_date}T{preferred_time_start}")` is their
sum. With available slots present, the first 5 are wrapped with confidence
0.8; otherwise, with a preferred date and start time, 3 slots of 2 hours are
synthesized at 2-hour offsets with confidences `0.7 - i * 0.1`. -/
def create_fallback_slots (preferred_date preferred_time_start : Option Int)
    (available_slots : List Slot) : List SuggestedSlot :=
  if available_slots = [] then
    match preferred_date, preferred_time_start with
    | some d, some t =>
      (List.range 3).map (fun i =>
        let slot_start := (d + t) + (i : Int) * 2 * 60
        { start_datetime := slot_start
          end_datetime := slot_start + 2 * 60
          confidence := 7/10 - (i : ℚ) * (1/10) })
    | _, _ => []
  else
    (available_slots.take 5).map
      (fun s => { start_datetime := s.start, end_datetime := s.«end», confidence := 8/10 })

/-- The fields of `SchedulingAgent._get_fallback_response` that carry logic. -/
structure SchedulingResponse where
  suggested_slots : List SuggestedSlot
  fallback : Bool
  deriving DecidableEq, Repr

/-- Method `SchedulingAgent._get_fallback_response`. -/
def scheduling_fallback_response (preferred_date preferred_time_start : Option Int)
    (available_slots : List Slot) (_error : String) : SchedulingResponse :=
  { suggested_slots :=
      create_fallback_slots preferred_date preferred_time_start available_slots
    fallback := true }

/-- Method `SchedulingAgent.execute` on a context with the given preferences and
computed available slots. -/
def scheduling_execute (preferred_date preferred_time_start : Option Int)
    (available_slots : List Slot)
    (outcome : AgentOutcome SchedulingResponse) : SchedulingResponse :=
  agent_execute
    (scheduling_fallback_response preferred_date preferred_time_start available_slots)
    outcome

/-! Part: Concrete fixtures used by witnesses and counterexamples -/

/-- A booking in `accepted` status with no scheduling data yet. -/
def acceptedBooking : Booking :=
  { mkRequestedBooking (some 60) with status := .accepted }

/-- A booking whose service is running. -/
def runningBooking : Booking :=
  { mkRequestedBooking none with
    status := .inProgress, scheduled_datetime := some 600 }

/-- A finished booking (terminal status `completed`). -/
def completedBooking : Booking :=
  { mkRequestedBooking none with
    status := .completed, scheduled_datetime := some 600, completed_at := some 700 }

/-! Part: C2 — schedule guard -/

/-- C2: `schedule_booking` succeeds only from status `accepted`, and on an
accepted booking a requested datetime that is not among the (non-empty) list of
suggested slot starts is rejected as a bad request; an error leaves the booking
unmodified (the transition returns no booking). -/
theorem schedule_guard_C2 (b : Booking) (dt : Int) (available_times : List Int) :
    ((∃ b', schedule_booking b dt available_times = .ok b') → b.status = .accepted) ∧
    (b.status = .accepted → available_times ≠ [] → dt ∉ available_times →
      schedule_booking b dt available_times = .error "Selected time slot is not available") := by
  constructor
  · rintro ⟨b', hb'⟩
    by_contra hstatus
    simp [schedule_booking, hstatus] at hb'
  · intro hstatus hne hmem
    simp [schedule_booking, hstatus, hne, hmem]

/-- Witness for C2 at a concrete accepted booking: datetime 540 is not among
the suggested starts `[600, 660]`, so scheduling is rejected. -/
theorem schedule_guard_C2_witness :
    schedule_booking acceptedBooking 540 [600, 660] =
      .error "Selected time slot is not available" :=
  (schedule_guard_C2 acceptedBooking 540 [600, 660]).2 (by decide) (by decide) (by decide)

/-! Part: C10 — empty suggested-slot list skips validation -/

/-- C10: when the scheduling pipeline's suggested-slot list is empty, the
slot-membership validation in `schedule_booking` is skipped entirely: any
requested datetime is accepted on a booking in status `accepted`, and the
booking moves to `scheduled` with that datetime. -/
theorem schedule_empty_slots_C10 (b : Booking) (dt : Int)
    (hstatus : b.status = .accepted) :
    schedule_booking b dt [] =
      .ok { b with status := .scheduled, scheduled_datetime := some dt } := by
  simp [schedule_booking, hstatus]

/-- Witness for C10: an arbitrary datetime (3 a.m.) is accepted when the
suggested-slot list is empty. -/
theorem schedule_empty_slots_C10_witness :
    schedule_booking acceptedBooking 180 [] =
      .ok { acceptedBooking with status := .scheduled, scheduled_datetime := some 180 } :=
  schedule_empty_slots_C10 acceptedBooking 180 (by decide)

/-! Part: C8 — dispute creation has no status guard -/

/-- Counterexample to C8 as stated: the claim predicts that raising a dispute
succeeds exactly on a non-terminal booking without an existing dispute, but
`create_dispute` checks only for an existing dispute — on a `completed`
booking with no dispute it succeeds. -/
theorem create_dispute_C8_cex :
    ¬ (∀ (b : Booking) (existing_dispute : Bool),
        (create_dispute b existing_dispute).isOk = true ↔
          ((b.status ≠ .completed ∧ b.status ≠ .cancelled ∧ b.status ≠ .disputed) ∧
            existing_dispute = false)) := by
  intro hclaim
  have h := (hclaim completedBooking false).mp (by decide)
  exact h.1.1 rfl

/-- C8 as amended: raising a dispute succeeds exactly when no dispute record
already exists for the booking, regardless of the booking's status (terminal
states included); on success it creates the dispute record and sets the status
to `disputed`; when a dispute already exists the operation is rejected and the
booking is left unchanged. -/
theorem create_dispute_C8 (b : Booking) (existing_dispute : Bool) :
    ((create_dispute b existing_dispute).isOk = true ↔ existing_dispute = false) ∧
    (existing_dispute = false →
      create_dispute b existing_dispute = .ok ({ b with status := .disputed }, true)) ∧
    (existing_dispute = true →
      create_dispute b existing_dispute = .error "Dispute already exists for this booking") := by
  refine ⟨?_, ?_, ?_⟩ <;> cases existing_dispute <;> simp [create_dispute, Except.isOk, Except.toBool]

/-- Witness for C8 (amended) on a running booking without an existing
dispute: the dispute is created and the booking becomes `disputed`. -/
theorem create_dispute_C8_witness :
    create_dispute runningBooking false =
      .ok ({ runningBooking with status := .disputed }, true) :=
  (create_dispute_C8 runningBooking false).2.1 rfl

/-! Part: C9 — scheduling fallback slots -/

/-- C9: the scheduling fallback (a) wraps the first 5 computed available slots
with fixed confidence 0.8 when any exist, and (b) with no available slots but
a preferred date and start time, synthesizes exactly 3 two-hour slots at the
preferred time plus 0, 2 and 4 hours with confidences 0.7, 0.6, 0.5. -/
theorem scheduling_fallback_C9 (pd pts : Option Int) (avail : List Slot) (d t : Int) :
    (avail ≠ [] →
      create_fallback_slots pd pts avail =
        (avail.take 5).map
          (fun s => { start_datetime := s.start, end_datetime := s.«end», confidence := 8/10 }) ∧
      (create_fallback_slots pd pts avail).length = min 5 avail.length ∧
      ∀ m ∈ create_fallback_slots pd pts avail, m.confidence = 8/10) ∧
    (avail = [] →
      create_fallback_slots (some d) (some t) avail =
        [{ start_datetime := d + t, end_datetime := d + t + 120, confidence := 7/10 },
         { start_datetime := d + t + 120, end_datetime := d + t + 240, confidence := 6/10 },
         { start_datetime := d + t + 240, end_datetime := d + t + 360, confidence := 1/2 }]) := by
  constructor
  · intro hne
    have hdef : create_fallback_slots pd pts avail =
        (avail.take 5).map
          (fun s => { start_datetime := s.start, end_datetime := s.«end», confidence := 8/10 }) := by
      simp [create_fallback_slots, hne]
    refine ⟨hdef, ?_, ?_⟩
    · simp [hdef, List.length_take]
    · intro m hm
      rw [hdef] at hm
      obtain ⟨s, _, rfl⟩ := List.mem_map.mp hm
      rfl
  · intro he
    subst he
    simp only [create_fallback_slots, if_pos rfl]
    norm_num [List.range_succ]
    omega

/-- Witness for C9 at a concrete context: one available slot 540–600 is
wrapped with confidence 0.8 (branch a), and with no slots and preferred start
at minute 540 of day-midnight 0, branch (b) yields the three synthesized
slots. -/
theorem scheduling_fallback_C9_witness :
    (create_fallback_slots none none [⟨540, 600⟩] =
        [{ start_datetime := 540, end_datetime := 600, confidence := 8/10 }] ∧
      (create_fallback_slots none none [⟨540, 600⟩]).length = min 5 1 ∧
      ∀ m ∈ create_fallback_slots none none [⟨540, 600⟩], m.confidence = 8/10) ∧
    create_fallback_slots (some 0) (some 540) [] =
      [{ start_datetime := 540, end_datetime := 660, confidence := 7/10 },
       { start_datetime := 660, end_datetime := 780, confidence := 3/5 },
       { start_datetime := 780, end_datetime := 900, confidence := 1/2 }] := by
  refine ⟨(scheduling_fallback_C9 none none [⟨540, 600⟩] 0 540).1 (by decide), ?_⟩
  have h := (scheduling_fallback_C9 (some 0) (some 540) [] 0 540).2 rfl
  norm_num at h
  exact h

/-! Part: Fallback-scorer lemmas (shared by C3 and C4) -/

instance : IsTotal FallbackMatch matchGE :=
  ⟨fun a b => le_total b.match_score a.match_score⟩

instance : IsTrans FallbackMatch matchGE :=
  ⟨fun _ _ _ hab hbc => le_trans hbc hab⟩

theorem roundHalfEven_le {y : ℚ} {n : ℤ} (h : y ≤ (n : ℚ)) : roundHalfEven y ≤ n := by
  unfold roundHalfEven
  have hfl : (⌊y⌋ : ℚ) ≤ y := Int.floor_le y
  have hfn : ⌊y⌋ ≤ n := by
    have := Int.floor_le_floor h
    simpa using this
  split_ifs with h1 h2 h3
  · exact hfn
  · have h2' : (⌊y⌋ : ℚ) + 1/2 < (n : ℚ) := by linarith
    have hlt : (⌊y⌋ : ℚ) < (n : ℚ) := by linarith
    have : ⌊y⌋ < n := by exact_mod_cast hlt
    omega
  · exact hfn
  · have hhalf : y - ⌊y⌋ = 1/2 := le_antisymm (not_lt.mp h2) (not_lt.mp h1)
    have hle : (⌊y⌋ : ℚ) + 1/2 ≤ (n : ℚ) := by linarith
    have hlt : (⌊y⌋ : ℚ) < (n : ℚ) := by linarith
    have : ⌊y⌋ < n := by exact_mod_cast hlt
    omega

theorem le_roundHalfEven {y : ℚ} {n : ℤ} (h : (n : ℚ) ≤ y) : n ≤ roundHalfEven y := by
  unfold roundHalfEven
  have hfn : n ≤ ⌊y⌋ := Int.le_floor.mpr h
  split_ifs <;> omega

theorem pyRound2_nonneg {x : ℚ} (h : 0 ≤ x) : 0 ≤ pyRound2 x := by
  unfold pyRound2
  have h0 : (0 : ℤ) ≤ roundHalfEven (x * 100) := le_roundHalfEven (by push_cast; linarith)
  have : (0 : ℚ) ≤ (roundHalfEven (x * 100) : ℚ) := by exact_mod_cast h0
  linarith

theorem pyRound2_le_100 {x : ℚ} (h : x ≤ 100) : pyRound2 x ≤ 100 := by
  unfold pyRound2
  have h0 : roundHalfEven (x * 100) ≤ (10000 : ℤ) := roundHalfEven_le (by push_cast; linarith)
  have : (roundHalfEven (x * 100) : ℚ) ≤ 10000 := by exact_mod_cast h0
  linarith

theorem fallback_match_score_nonneg (p : MatchCandidate) : 0 ≤ fallback_match_score p :=
  le_max_left 0 _

theorem fallback_match_score_le_100 (p : MatchCandidate) :
    fallback_match_score p ≤ 100 := by
  unfold fallback_match_score
  exact max_le (by norm_num) (min_le_left _ _)

theorem sorted_create_fallback_matches (providers : List MatchCandidate) :
    List.Sorted matchGE (create_fallback_matches providers) := by
  unfold create_fallback_matches
  exact (List.sorted_insertionSort matchGE _).sublist (List.take_sublist _ _)

theorem length_create_fallback_matches (providers : List MatchCandidate) :
    (create_fallback_matches providers).length ≤ 5 := by
  unfold create_fallback_matches
  exact List.length_take_le _ _

theorem mem_create_fallback_matches {providers : List MatchCandidate}
    {m : FallbackMatch} (h : m ∈ create_fallback_matches providers) :
    ∃ p ∈ providers, m = ⟨p.id, pyRound2 (fallback_match_score p)⟩ := by
  unfold create_fallback_matches at h
  have h1 : m ∈ List.insertionSort matchGE
      (providers.map (fun p => (⟨p.id, pyRound2 (fallback_match_score p)⟩ : FallbackMatch))) :=
    List.mem_of_mem_take h
  have h2 := (List.perm_insertionSort matchGE _).mem_iff.mp h1
  obtain ⟨p, hp, hmp⟩ := List.mem_map.mp h2
  exact ⟨p, hp, hmp.symm⟩

/-- The end-to-end fixture of the spec: a lone candidate with rating 4.5,
distance 1.5 km, completion rate 90 scores `50 + 15 + 20 + 2 = 87`. -/
theorem create_fallback_matches_example :
    create_fallback_matches [⟨"p1", 9/2, 3/2, 90⟩] = [⟨"p1", 87⟩] := by
  have hscore : fallback_match_score ⟨"p1", 9/2, 3/2, 90⟩ = 87 := by
    unfold fallback_match_score
    norm_num [min_def, max_def]
  have hround : pyRound2 87 = 87 := by
    unfold pyRound2 roundHalfEven
    norm_num
  simp [create_fallback_matches, List.insertionSort, List.orderedInsert, hscore, hround]

/-! Part: C3 — the matching fallback scorer -/

/-- C3: the fallback scorer assigns each candidate
`round(clamp(50 + (rating − 3) * 10 + distance_bonus + (completion_rate − 80)
* 0.2, 0, 100), 2)` with `distance_bonus` 20 under 5 km and 10 under 10 km,
every returned score lies in `[0, 100]`, the matches are sorted descending by
score, at most 5 are returned, and a lone candidate with rating 4.5, distance
1.5 km and completion rate 90 yields exactly one match with score 87. -/
theorem fallback_scorer_C3 (providers : List MatchCandidate) :
    List.Sorted matchGE (create_fallback_matches providers) ∧
    (create_fallback_matches providers).length ≤ 5 ∧
    (∀ m ∈ create_fallback_matches providers,
      ∃ p ∈ providers,
        m = ⟨p.id, pyRound2 (max 0 (min 100
              (50 + (p.rating - 3) * 10 +
                (if p.distance_km < 5 then 20 else if p.distance_km < 10 then 10 else 0) +
                (p.completion_rate - 80) * (2/10))))⟩ ∧
        0 ≤ m.match_score ∧ m.match_score ≤ 100) ∧
    create_fallback_matches [⟨"p1", 9/2, 3/2, 90⟩] = [⟨"p1", 87⟩] := by
  refine ⟨sorted_create_fallback_matches providers,
          length_create_fallback_matches providers, ?_, ?_⟩
  · intro m hm
    obtain ⟨p, hp, rfl⟩ := mem_create_fallback_matches hm
    refine ⟨p, hp, ?_, ?_, ?_⟩
    · have : fallback_match_score p =
          max 0 (min 100
            (50 + (p.rating - 3) * 10 +
              (if p.distance_km < 5 then 20 else if p.distance_km < 10 then 10 else 0) +
              (p.completion_rate - 80) * (2/10))) := by
        unfold fallback_match_score
        ring_nf
      rw [this]
    · exact pyRound2_nonneg (fallback_match_score_nonneg p)
    · exact pyRound2_le_100 (fallback_match_score_le_100 p)
  · exact create_fallback_matches_example

/-- Witness for C3: the lone match `⟨"p1", 87⟩` of the concrete candidate is
traced back to that candidate with its score formula and bounds. -/
theorem fallback_scorer_C3_witness :
    ∃ p ∈ [(⟨"p1", 9/2, 3/2, 90⟩ : MatchCandidate)],
      (⟨"p1", (87 : ℚ)⟩ : FallbackMatch) = ⟨p.id, pyRound2 (max 0 (min 100
          (50 + (p.rating - 3) * 10 +
            (if p.distance_km < 5 then 20 else if p.distance_km < 10 then 10 else 0) +
            (p.completion_rate - 80) * (2/10))))⟩ ∧
      0 ≤ (⟨"p1", (87 : ℚ)⟩ : FallbackMatch).match_score ∧
      (⟨"p1", (87 : ℚ)⟩ : FallbackMatch).match_score ≤ 100 :=
  (fallback_scorer_C3 [⟨"p1", 9/2, 3/2, 90⟩]).2.2.1 ⟨"p1", 87⟩
    (by rw [create_fallback_matches_example]; exact List.mem_singleton.mpr rfl)

/-! Part: C4 — agent failure yields a flagged, well-formed fallback -/

/-- C4: when the guarded LLM call of `BaseAgent.execute` times out or raises,
the pipeline returns the deterministic fallback response instead of raising
(the model is total): for the matching agent the response is
`_get_fallback_response`, carries `fallback = true` and is well-formed for the
matching schema (at most 5 matches, every score in `[0, 100]`); for the
scheduling agent likewise, with `fallback = true`. -/
theorem agent_fallback_C4 (providers : List MatchCandidate)
    (pd pts : Option Int) (avail : List Slot)
    (mo : AgentOutcome MatchingResponse) (so : AgentOutcome SchedulingResponse)
    (hm : mo = .timeout ∨ ∃ e, mo = .failure e)
    (hs : so = .timeout ∨ ∃ e, so = .failure e) :
    (∃ err, matching_execute providers mo = matching_fallback_response providers err) ∧
    (matching_execute providers mo).fallback = true ∧
    (matching_execute providers mo).matches.length ≤ 5 ∧
    (∀ m ∈ (matching_execute providers mo).matches,
      0 ≤ m.match_score ∧ m.match_score ≤ 100) ∧
    (∃ err, scheduling_execute pd pts avail so =
      scheduling_fallback_response pd pts avail err) ∧
    (scheduling_execute pd pts avail so).fallback = true := by
  have hmexec : ∃ err, matching_execute providers mo =
      matching_fallback_response providers err := by
    rcases hm with rfl | ⟨e, rfl⟩
    · exact ⟨"AI request timed out", rfl⟩
    · exact ⟨e, rfl⟩
  have hsexec : ∃ err, scheduling_execute pd pts avail so =
      scheduling_fallback_response pd pts avail err := by
    rcases hs with rfl | ⟨e, rfl⟩
    · exact ⟨"AI request timed out", rfl⟩
    · exact ⟨e, rfl⟩
  obtain ⟨errm, hem⟩ := hmexec
  obtain ⟨errs, hes⟩ := hsexec
  refine ⟨⟨errm, hem⟩, ?_, ?_, ?_, ⟨errs, hes⟩, ?_⟩
  · rw [hem]; rfl
  · rw [hem]; exact length_create_fallback_matches providers
  · rw [hem]
    intro m hmem
    obtain ⟨p, _, rfl⟩ :=
      mem_create_fallback_matches hmem
    exact ⟨pyRound2_nonneg (fallback_match_score_nonneg p),
           pyRound2_le_100 (fallback_match_score_le_100 p)⟩
  · rw [hes]; rfl

/-- Witness for C4 on concrete failing outcomes (a timeout for matching, an
exception for scheduling) with one concrete candidate. -/
theorem agent_fallback_C4_witness :
    (∃ err, matching_execute [⟨"p1", 9/2, 3/2, 90⟩] .timeout =
      matching_fallback_response [⟨"p1", 9/2, 3/2, 90⟩] err) ∧
    (matching_execute [⟨"p1", 9/2, 3/2, 90⟩] .timeout).fallback = true ∧
    (matching_execute [⟨"p1", 9/2, 3/2, 90⟩] .timeout).matches.length ≤ 5 ∧
    (∀ m ∈ (matching_execute [⟨"p1", 9/2, 3/2, 90⟩] .timeout).matches,
      0 ≤ m.match_score ∧ m.match_score ≤ 100) ∧
    (∃ err, scheduling_execute none none [⟨540, 600⟩] (.failure "boom") =
      scheduling_fallback_response none none [⟨540, 600⟩] err) ∧
    (scheduling_execute none none [⟨540, 600⟩] (.failure "boom")).fallback = true :=
  agent_fallback_C4 [⟨"p1", 9/2, 3/2, 90⟩] none none [⟨540, 600⟩]
    .timeout (.failure "boom") (Or.inl rfl) (Or.inr ⟨"boom", rfl⟩)

/-! Part: Slot-computation lemmas (shared by C5 and C6) -/

theorem slotLoop_nil {c e dur : Int} (bks : List Booking) (tos : List ProviderTimeOff)
    (h : ¬ c + dur ≤ e) : slotLoop c e dur bks tos = [] := by
  unfold slotLoop
  rw [dif_neg h]

theorem mem_slotLoop {c e dur : Int} {bks : List Booking} {tos : List ProviderTimeOff}
    {s : Slot} :
    s ∈ slotLoop c e dur bks tos →
      (∃ k : ℕ, s.start = c + 30 * k) ∧ s.«end» = s.start + dur ∧ s.«end» ≤ e ∧
      (∀ bk ∈ bks, bookingConflict s.start s.«end» dur bk = false) ∧
      (∀ t ∈ tos, timeOffConflict s.start s.«end» t = false) := by
  induction c, e, dur, bks, tos using slotLoop.induct with
  | case1 c e dur bks tos hle hconf ih =>
    intro hs
    unfold slotLoop at hs
    rw [dif_pos hle, if_pos hconf] at hs
    obtain ⟨⟨k, hk⟩, hrest⟩ := ih hs
    exact ⟨⟨k + 1, by omega⟩, hrest⟩
  | case2 c e dur bks tos hle hconf ih =>
    intro hs
    unfold slotLoop at hs
    rw [dif_pos hle, if_neg hconf] at hs
    have hconf' : bks.any (bookingConflict c (c + dur) dur) = false ∧
        tos.any (timeOffConflict c (c + dur)) = false := by
      simpa [Bool.or_eq_false_iff] using hconf
    rcases List.mem_cons.mp hs with rfl | hs
    · refine ⟨⟨0, by simp⟩, rfl, hle, ?_, ?_⟩
      · intro bk hbk
        exact Bool.not_eq_true _ ▸ List.any_eq_false.mp hconf'.1 bk hbk
      · intro t ht
        exact Bool.not_eq_true _ ▸ List.any_eq_false.mp hconf'.2 t ht
    · obtain ⟨⟨k, hk⟩, hrest⟩ := ih hs
      exact ⟨⟨k + 1, by omega⟩, hrest⟩
  | case3 c e dur bks tos hle =>
    intro hs
    rw [slotLoop_nil bks tos hle] at hs
    simp at hs

theorem slotLoop_pairwise {c e dur : Int} {bks : List Booking}
    {tos : List ProviderTimeOff} :
    List.Pairwise (fun a b : Slot => a.start < b.start) (slotLoop c e dur bks tos) := by
  induction c, e, dur, bks, tos using slotLoop.induct with
  | case1 c e dur bks tos hle hconf ih =>
    unfold slotLoop
    rw [dif_pos hle, if_pos hconf]
    exact ih
  | case2 c e dur bks tos hle hconf ih =>
    unfold slotLoop
    rw [dif_pos hle, if_neg hconf]
    refine List.Pairwise.cons ?_ ih
    intro s hs
    obtain ⟨⟨k, hk⟩, _⟩ := mem_slotLoop hs
    show c < s.start
    omega
  | case3 c e dur bks tos hle =>
    rw [slotLoop_nil bks tos hle]
    exact List.Pairwise.nil

theorem bookingConflict_false {cursor se dur : Int} {bk : Booking} {bs : Int}
    (hbs : bk.scheduled_datetime = some bs)
    (h : bookingConflict cursor se dur bk = false) :
    se ≤ bs ∨ bs + pyOrInt bk.estimated_duration_minutes dur ≤ cursor := by
  simp only [bookingConflict, hbs, ge_iff_le, decide_eq_false_iff_not, not_not] at h
  exact h

theorem timeOffConflict_false {cursor se : Int} {t : ProviderTimeOff}
    (h : timeOffConflict cursor se t = false) :
    se ≤ t.start_datetime ∨ t.end_datetime ≤ cursor := by
  simp only [timeOffConflict, ge_iff_le, decide_eq_false_iff_not, not_not] at h
  exact h

/-- The §8 scenario: a provider open 09:00–18:00 (minutes 540–1080) with one
scheduled booking 10:00–11:00 (600–660, 60 minutes). -/
def exampleBooked : Booking :=
  { mkRequestedBooking (some 60) with status := .scheduled, scheduled_datetime := some 600 }

/-- Slots computed for the §8 scenario with a requested duration of 60
minutes. -/
def exampleSlots : List Slot :=
  get_available_slots [⟨0, 540, 1080, true⟩] [exampleBooked] [] (some 0) 60

theorem exampleSlots_eq :
    exampleSlots =
      [⟨540, 600⟩, ⟨660, 720⟩, ⟨690, 750⟩, ⟨720, 780⟩, ⟨750, 810⟩, ⟨780, 840⟩,
       ⟨810, 870⟩, ⟨840, 900⟩, ⟨870, 930⟩, ⟨900, 960⟩, ⟨930, 990⟩, ⟨960, 1020⟩,
       ⟨990, 1050⟩, ⟨1020, 1080⟩] := by
  unfold exampleSlots get_available_slots calculate_available_slots exampleBooked
    mkRequestedBooking
  simp [slotLoop, bookingConflict, timeOffConflict, pyOrInt]

/-! Part: C5 — slot generation, conflict rejection, ordering -/

/-- C5: every slot computed by the availability pipeline spans exactly the
requested duration, starts at a 30-minute increment from the day's opening
time, lies inside the open interval, is disjoint (in the exclusive sense) from
every active booking's interval and every time-off interval, and the slots are
emitted in strictly increasing chronological order; in the §8 scenario with an
existing booking 600–660 and duration 60, slots 540–600 and 660–720 are
present while no slot starts at 600. -/
theorem slot_computation_C5 (availability : List ProviderAvailability)
    (bookings : List Booking) (tos : List ProviderTimeOff) (day : Nat) (dur : Int)
    (dayAvail : ProviderAvailability)
    (hfind : (availability.filter (fun a => a.is_available)).find?
        (fun a => a.day_of_week = day) = some dayAvail) :
    (∀ s ∈ get_available_slots availability bookings tos (some day) dur,
      (∃ k : ℕ, s.start = dayAvail.start_time + 30 * k) ∧
      s.«end» = s.start + dur ∧
      dayAvail.start_time ≤ s.start ∧ s.«end» ≤ dayAvail.end_time ∧
      (∀ bk ∈ bookings,
        (bk.status = .accepted ∨ bk.status = .scheduled ∨ bk.status = .inProgress) →
        ∀ bs, bk.scheduled_datetime = some bs →
          s.«end» ≤ bs ∨ bs + pyOrInt bk.estimated_duration_minutes dur ≤ s.start) ∧
      (∀ t ∈ tos, s.«end» ≤ t.start_datetime ∨ t.end_datetime ≤ s.start)) ∧
    List.Pairwise (fun a b : Slot => a.start < b.start)
      (get_available_slots availability bookings tos (some day) dur) ∧
    ((⟨540, 600⟩ : Slot) ∈ exampleSlots ∧ (⟨660, 720⟩ : Slot) ∈ exampleSlots ∧
      ∀ s ∈ exampleSlots, s.start ≠ 600) := by
  have hres : get_available_slots availability bookings tos (some day) dur =
      slotLoop dayAvail.start_time dayAvail.end_time dur
        (bookings.filter (fun b =>
          b.status = .accepted ∨ b.status = .scheduled ∨ b.status = .inProgress)) tos := by
    unfold get_available_slots calculate_available_slots
    simp only [hfind]
  refine ⟨?_, ?_, ?_⟩
  · intro s hs
    rw [hres] at hs
    obtain ⟨⟨k, hk⟩, hend, hinterval, hbkconf, htoconf⟩ := mem_slotLoop hs
    refine ⟨⟨k, hk⟩, hend, by omega, hinterval, ?_, ?_⟩
    · intro bk hbk hstat bs hbs
      have hmem : bk ∈ bookings.filter (fun b =>
          b.status = .accepted ∨ b.status = .scheduled ∨ b.status = .inProgress) :=
        List.mem_filter.mpr ⟨hbk, by simpa using hstat⟩
      exact bookingConflict_false hbs (hbkconf bk hmem)
    · intro t ht
      exact timeOffConflict_false (htoconf t ht)
  · rw [hres]
    exact slotLoop_pairwise
  · rw [exampleSlots_eq]
    refine ⟨by decide, by decide, by decide⟩

/-- Witness for C5: the §8 scenario itself discharges the day-availability
hypothesis, and the second slot 660–720 satisfies the per-slot properties. -/
theorem slot_computation_C5_witness :
    (⟨540, 600⟩ : Slot) ∈ exampleSlots ∧ (⟨660, 720⟩ : Slot) ∈ exampleSlots ∧
      ∀ s ∈ exampleSlots, s.start ≠ 600 :=
  (slot_computation_C5 [⟨0, 540, 1080, true⟩] [exampleBooked] [] 0 60
    ⟨0, 540, 1080, true⟩ (by decide)).2.2

/-! Part: C6 — missing availability or oversized duration gives an empty list -/

/-- C6: when the provider has no availability row for the target weekday
whose `is_available` flag is set, or the requested duration exceeds every such
open interval, the slot computation returns the empty list (the function is
total — there is no error path). -/
theorem slots_empty_C6 (availability : List ProviderAvailability)
    (bookings : List Booking) (tos : List ProviderTimeOff) (day : Nat) (dur : Int) :
    ((∀ a ∈ availability, a.day_of_week = day → a.is_available = false) →
      get_available_slots availability bookings tos (some day) dur = []) ∧
    ((∀ a ∈ availability, a.is_available = true → a.day_of_week = day →
        a.end_time < a.start_time + dur) →
      get_available_slots availability bookings tos (some day) dur = []) := by
  constructor
  · intro h
    have hnone : (availability.filter (fun a => a.is_available)).find?
        (fun a => a.day_of_week = day) = none := by
      rw [List.find?_eq_none]
      intro a ha
      obtain ⟨hmem, hav⟩ := List.mem_filter.mp ha
      intro hday
      have := h a hmem (by simpa using hday)
      simp [this] at hav
    unfold get_available_slots calculate_available_slots
    simp only [hnone]
  · intro h
    cases hf : (availability.filter (fun a => a.is_available)).find?
        (fun a => a.day_of_week = day) with
    | none =>
      unfold get_available_slots calculate_available_slots
      simp only [hf]
    | some a =>
      have hmem := List.mem_of_find?_eq_some hf
      obtain ⟨hmema, hav⟩ := List.mem_filter.mp hmem
      have hday : a.day_of_week = day := by
        have := List.find?_some hf
        simpa using this
      have hshort := h a hmema (by simpa using hav) hday
      unfold get_available_slots calculate_available_slots
      simp only [hf]
      exact slotLoop_nil _ _ (by omega)

/-- Witness for C6: a provider whose only Monday row is flagged unavailable
yields no slots, and an open interval 09:00–10:00 cannot fit 120 minutes. -/
theorem slots_empty_C6_witness :
    get_available_slots [⟨0, 540, 1080, false⟩] [] [] (some 0) 60 = [] ∧
    get_available_slots [⟨0, 540, 600, true⟩] [] [] (some 0) 120 = [] :=
  ⟨(slots_empty_C6 [⟨0, 540, 1080, false⟩] [] [] 0 60).1 (by decide),
   (slots_empty_C6 [⟨0, 540, 600, true⟩] [] [] 0 120).2 (by decide)⟩

/-! Part: State-machine lemmas (C1) -/

theorem accept_booking_ok {b b' : Booking} (h : accept_booking b = .ok b') :
    b.status = .requested ∧ b' = { b with status := .accepted } := by
  by_cases hs : b.status = .requested
  · refine ⟨hs, ?_⟩
    unfold accept_booking at h
    rw [if_neg (by simp [hs])] at h
    injection h with h2
    exact h2.symm
  · exfalso
    unfold accept_booking at h
    rw [if_pos hs] at h
    exact Except.noConfusion h

theorem reject_booking_ok {b b' : Booking} {reason : String}
    (h : reject_booking b reason = .ok b') :
    b.status = .requested ∧
    b' = { b with status := .cancelled, cancellation_reason := some reason,
                  cancelled_by := some Actor.provider } := by
  by_cases hs : b.status = .requested
  · refine ⟨hs, ?_⟩
    unfold reject_booking at h
    rw [if_neg (by simp [hs])] at h
    injection h with h2
    exact h2.symm
  · exfalso
    unfold reject_booking at h
    rw [if_pos hs] at h
    exact Except.noConfusion h

theorem schedule_booking_ok {b b' : Booking} {dt : Int} {avail : List Int}
    (h : schedule_booking b dt avail = .ok b') :
    b.status = .accepted ∧
    b' = { b with status := .scheduled, scheduled_datetime := some dt } := by
  by_cases hs : b.status = .accepted
  · refine ⟨hs, ?_⟩
    by_cases hmem : avail ≠ [] ∧ dt ∉ avail
    · exfalso
      unfold schedule_booking at h
      rw [if_neg (by simp [hs]), if_pos hmem] at h
      exact Except.noConfusion h
    · unfold schedule_booking at h
      rw [if_neg (by simp [hs]), if_neg hmem] at h
      injection h with h2
      exact h2.symm
  · exfalso
    unfold schedule_booking at h
    rw [if_pos hs] at h
    exact Except.noConfusion h

theorem start_booking_ok {b b' : Booking} (h : start_booking b = .ok b') :
    b.status = .scheduled ∧ b' = { b with status := .inProgress } := by
  by_cases hs : b.status = .scheduled
  · refine ⟨hs, ?_⟩
    unfold start_booking at h
    rw [if_neg (by simp [hs])] at h
    injection h with h2
    exact h2.symm
  · exfalso
    unfold start_booking at h
    rw [if_pos hs] at h
    exact Except.noConfusion h

theorem complete_booking_update_ok {b b' : Booking} {fp : Option ℚ} {now : Int}
    (h : complete_booking_update b fp now = .ok b') :
    b.status = .inProgress ∧ b' = completeUpdate b fp now := by
  by_cases hs : b.status = .inProgress
  · refine ⟨hs, ?_⟩
    unfold complete_booking_update at h
    rw [if_neg (by simp [hs])] at h
    injection h with h2
    exact h2.symm
  · exfalso
    unfold complete_booking_update at h
    rw [if_pos hs] at h
    exact Except.noConfusion h

theorem cancel_booking_ok {b b' : Booking} {who : Actor} {reason : String} {now : Int}
    (h : cancel_booking b who reason now = .ok b') :
    ¬(b.status = .completed ∨ b.status = .cancelled) ∧
    b' = { b with status := .cancelled, cancellation_reason := some reason,
                  cancelled_by := some who, cancelled_at := some now } := by
  by_cases hs : b.status = .completed ∨ b.status = .cancelled
  · exfalso
    unfold cancel_booking at h
    rw [if_pos hs] at h
    exact Except.noConfusion h
  · refine ⟨hs, ?_⟩
    unfold cancel_booking at h
    rw [if_neg hs] at h
    injection h with h2
    exact h2.symm

/-- One successful endpoint invocation moves the status along an edge of the
§4.3 graph and preserves the scheduled-datetime invariant; none of the six
endpoints produces the `disputed` status. -/
theorem applyEvent_step {b b' : Booking} {e : BookingEvent}
    (hInv : schedInvariant b) (hnd : b.status ≠ .disputed)
    (h : applyEvent b e = .ok b') :
    statusEdge b.status b'.status = true ∧ schedInvariant b' ∧
    b'.status ≠ .disputed := by
  cases e with
  | accept =>
    obtain ⟨hs, rfl⟩ := accept_booking_ok h
    rw [hs]
    exact ⟨rfl, by simp [schedInvariant], by simp⟩
  | reject reason =>
    obtain ⟨hs, rfl⟩ := reject_booking_ok h
    rw [hs]
    exact ⟨rfl, by simp [schedInvariant], by simp⟩
  | schedule dt avail =>
    obtain ⟨hs, rfl⟩ := schedule_booking_ok h
    rw [hs]
    exact ⟨rfl, by simp [schedInvariant], by simp⟩
  | start =>
    obtain ⟨hs, rfl⟩ := start_booking_ok h
    rw [hs]
    refine ⟨rfl, fun _ => ?_, by simp⟩
    exact hInv (Or.inl hs)
  | complete fp now =>
    obtain ⟨hs, rfl⟩ := complete_booking_update_ok h
    rw [hs]
    refine ⟨rfl, fun _ => ?_, by simp [completeUpdate]⟩
    show b.scheduled_datetime ≠ none
    exact hInv (Or.inr (Or.inl hs))
  | cancel who reason now =>
    obtain ⟨hs, rfl⟩ := cancel_booking_ok h
    have hcases : b.status = .requested ∨ b.status = .accepted ∨
        b.status = .scheduled ∨ b.status = .inProgress := by
      cases hb : b.status <;> simp_all
    refine ⟨?_, by simp [schedInvariant], by simp⟩
    rcases hcases with hb | hb | hb | hb <;> rw [hb] <;> rfl

theorem traceBookings_head {b : Booking} {es : List BookingEvent} {l : List Booking}
    (h : traceBookings b es = some l) : ∃ t, l = b :: t := by
  cases es with
  | nil =>
    unfold traceBookings at h
    exact ⟨[], (Option.some_inj.mp h).symm⟩
  | cons e es =>
    unfold traceBookings at h
    cases happ : applyEvent b e with
    | error msg => rw [happ] at h; exact Option.noConfusion h
    | ok b' =>
      rw [happ] at h
      obtain ⟨l', _, hl⟩ := Option.map_eq_some'.mp h
      exact ⟨l', hl.symm⟩

theorem traceBookings_chain {es : List BookingEvent} : ∀ {b : Booking} {l : List Booking},
    schedInvariant b → b.status ≠ .disputed → traceBookings b es = some l →
    List.Chain' (fun x y => statusEdge x.status y.status = true) l ∧
    ∀ x ∈ l, schedInvariant x := by
  induction es with
  | nil =>
    intro b l hInv hnd h
    unfold traceBookings at h
    obtain rfl := (Option.some_inj.mp h).symm
    exact ⟨List.chain'_singleton _, by simpa using hInv⟩
  | cons e es ih =>
    intro b l hInv hnd h
    unfold traceBookings at h
    cases happ : applyEvent b e with
    | error msg => rw [happ] at h; exact Option.noConfusion h
    | ok b' =>
      rw [happ] at h
      obtain ⟨l', hl', rfl⟩ := Option.map_eq_some'.mp h
      obtain ⟨hedge, hinv', hnd'⟩ := applyEvent_step hInv hnd happ
      obtain ⟨hchain, hall⟩ := ih hinv' hnd' hl'
      obtain ⟨t, rfl⟩ := traceBookings_head hl'
      refine ⟨List.chain'_cons.mpr ⟨hedge, hchain⟩, ?_⟩
      intro x hx
      rcases List.mem_cons.mp hx with rfl | hx
      · exact hInv
      · exact hall x hx

/-! Part: C1 — the booking lifecycle invariant -/

/-- C1: along every successful sequence of endpoint invocations (accept,
reject, schedule, start, complete, cancel) starting from a freshly created
booking request, the statuses form a path in the §4.3 transition graph
(`requested → accepted → scheduled → in_progress → completed` with the
`cancelled` side-exit), every intermediate booking satisfies the invariant
that `scheduled_datetime` is set while the status is `scheduled`,
`in_progress` or `completed`, and in particular no booking is ever
`in_progress` with `scheduled_datetime` unset — each endpoint rejects when
its status guard fails. -/
theorem booking_lifecycle_C1 (estDur : Option Int) (es : List BookingEvent)
    (l : List Booking)
    (h : traceBookings (mkRequestedBooking estDur) es = some l) :
    List.Chain' (fun x y => statusEdge x.status y.status = true) l ∧
    (∀ x ∈ l, schedInvariant x) ∧
    (∀ x ∈ l, x.status = .inProgress → x.scheduled_datetime ≠ none) := by
  have hInv : schedInvariant (mkRequestedBooking estDur) := by
    intro h'
    simp [mkRequestedBooking] at h'
  obtain ⟨hchain, hall⟩ :=
    traceBookings_chain hInv (by simp [mkRequestedBooking]) h
  exact ⟨hchain, hall, fun x hx hs => hall x hx (Or.inr (Or.inl hs))⟩

/-- The booking states passed through by the witness trace for C1:
request, accept, schedule at minute 600, start, complete at price 50. -/
def exampleTrace : List Booking :=
  [mkRequestedBooking none,
   { mkRequestedBooking none with status := .accepted },
   { mkRequestedBooking none with status := .scheduled, scheduled_datetime := some 600 },
   { mkRequestedBooking none with status := .inProgress, scheduled_datetime := some 600 },
   { mkRequestedBooking none with
     status := .completed
     scheduled_datetime := some 600
     completed_at := some 1000
     final_price := some 50 }]

/-- Witness for C1 on a concrete happy-path trace through all five statuses. -/
theorem booking_lifecycle_C1_witness :
    List.Chain' (fun x y => statusEdge x.status y.status = true) exampleTrace ∧
    (∀ x ∈ exampleTrace, schedInvariant x) ∧
    (∀ x ∈ exampleTrace, x.status = .inProgress → x.scheduled_datetime ≠ none) :=
  booking_lifecycle_C1 none
    [.accept, .schedule 600 [540, 600], .start, .complete (some 50) 1000]
    exampleTrace (by decide)

/-! Part: C7 — the complete transition (code bug) -/

theorem countActive_cons_active (b : Booking) (others : List Booking)
    (h : isActiveStatus b.status = true) : 0 < countActive (b :: others) := by
  unfold countActive
  rw [List.filter_cons, if_pos h]
  simp

/-- C7 exhibits a code bug: the claim describes the intended complete
transition (set `completed`/`completed_at`/`final_price`, recompute
`completion_rate` over the provider's history), but the endpoint can never
perform it. Once the `in_progress` guard has passed, the pre-update COUNT
(the session never autoflushes) still sees the current booking as
`in_progress`, so `total_accepted.scalar() > 0` holds and the recompute line
reads the already-closed `total_accepted` result a second time, raising
before anything is committed: for every in-progress booking the transition
ends in the closed-result error, not in a completed booking. -/
theorem complete_booking_C7 (b : Booking) (fp : Option ℚ) (now : Int)
    (p : ProviderStats) (others : List Booking)
    (hb : b.status = .inProgress) :
    complete_booking b fp now p others = .error "This result object is closed" := by
  have hpos : 0 < countActive (b :: others) :=
    countActive_cons_active b others (by simp [isActiveStatus, hb])
  unfold complete_booking
  rw [if_neg (by simp [hb]), if_pos hpos]

/-- Witness for C7: completing `runningBooking` with price 50 at minute 1000
against a provider with 3 prior bookings raises the closed-result error. -/
theorem complete_booking_C7_witness :
    complete_booking runningBooking (some 50) 1000 ⟨3, 80⟩ [] =
      .error "This result object is closed" :=
  complete_booking_C7 runningBooking (some 50) 1000 ⟨3, 80⟩ [] rfl

end WebAgents
